import Mathlib

/-!
# Shallow embedding of the Sparkify ETL pipeline (src/etl.py)

The pipeline reads two record sets — catalog ("song data") records and usage
("log data") records — and derives five relations: Song, Artist, User, Time
and Songplay.  DataFrames are modelled as Lean lists of structures; each
Spark operation used by `process_song_data` / `process_log_data` is given an
executable model translated from its documented semantics:

* `dropDuplicates(subset)`  → `dedupByKey` (keep the first row per key);
* `Window.partitionBy(user_id).orderBy(desc ts)` + `row_number = 1`
                            → `pickLatest` (a maximum-`ts` row per key);
* `to_timestamp(ts)` on a numeric column → `to_timestamp` (Spark casts the
  number as *seconds* since the epoch; instants here are milliseconds);
* `to_date` → `toDateDays` (truncate an instant to its UTC calendar day);
* `hour/dayofmonth/weekofyear/month/dayofweek` → the civil-calendar
  functions below (Howard Hinnant's `civil_from_days` algorithm);
* the `df.join(song_df, [song = title, artist = artist_name], "left")`
  left-outer join → `leftJoin`.

Nullable fields that the pipeline groups or joins on (`song_id`,
`artist_id`, `user_id`) are `Option String`; all other fields are carried
through verbatim and are modelled with concrete types.
-/

/-- A catalog ("song data") record, as read from `song_data/*/*/*/*.json`. -/
structure CatalogRecord where
  song_id : Option String
  title : String
  artist_id : Option String
  artist_name : String
  artist_location : String
  artist_latitude : Int
  artist_longitude : Int
  duration : Int
  year : Int
deriving DecidableEq

/-- A usage ("log data") record, after the column renames of
`process_log_data` (`firstName → first_name`, `lastName → last_name`,
`sessionId → session_id`, `userAgent → user_agent`, `userId → user_id`).
`ts` is the event instant in origin-epoch milliseconds. -/
structure UsageRecord where
  page : String
  user_id : Option String
  first_name : String
  last_name : String
  gender : String
  level : String
  song : String
  artist : String
  session_id : Int
  location : String
  user_agent : String
  ts : Int
deriving DecidableEq

/-- Model of Spark's `to_timestamp` applied to the numeric `ts` column
(etl.py line 124).  With no format argument this is `CAST(ts AS TIMESTAMP)`,
which interprets the number as **seconds** since the epoch.  Instants are
represented as milliseconds since the epoch, so the result is `ts * 1000`. -/
def to_timestamp (ts : Int) : Int := ts * 1000

/-- Model of Spark's `to_date` on a timestamp (etl.py line 129): truncate the
instant to its calendar day (UTC session time zone), returned as the number
of days since 1970-01-01. -/
def toDateDays (ms : Int) : Int := ms.ediv 86400000

/-- Hour-of-day of an instant given in epoch milliseconds. -/
def hourOfMs (ms : Int) : Int := (ms.ediv 3600000).emod 24

/-- Model of Spark's `hour` applied to a date column: the date is cast to the
timestamp at its midnight and the hour of day is extracted. -/
def hourOfDate (d : Int) : Int := hourOfMs (d * 86400000)

/-- Civil (proleptic Gregorian) date from a count of days since 1970-01-01:
`(year, month, day)`. -/
def civilFromDays (z0 : Int) : Int × Int × Int :=
  let z := z0 + 719468
  let era := z.ediv 146097
  let doe := z - era * 146097
  let yoe := (doe - doe.ediv 1460 + doe.ediv 36524 - doe.ediv 146096).ediv 365
  let y := yoe + era * 400
  let doy := doe - (365 * yoe + yoe.ediv 4 - yoe.ediv 100)
  let mp := (5 * doy + 2).ediv 153
  let d := doy - (153 * mp + 2).ediv 5 + 1
  let m := mp + (if mp < 10 then 3 else -9)
  (y + (if m ≤ 2 then 1 else 0), m, d)

/-- Days since 1970-01-01 of a civil (proleptic Gregorian) date. -/
def daysFromCivil (y m d : Int) : Int :=
  let y' := if m ≤ 2 then y - 1 else y
  let era := y'.ediv 400
  let yoe := y' - era * 400
  let mp := (m + 9).emod 12
  let doy := (153 * mp + 2).ediv 5 + d - 1
  let doe := yoe * 365 + yoe.ediv 4 - yoe.ediv 100 + doy
  era * 146097 + doe - 719468

/-- Model of Spark's `year` on a date column. -/
def yearOfDate (d : Int) : Int := (civilFromDays d).1

/-- Model of Spark's `month` on a date column. -/
def monthOfDate (d : Int) : Int := (civilFromDays d).2.1

/-- Model of Spark's `dayofmonth` on a date column. -/
def dayOfMonthOfDate (d : Int) : Int := (civilFromDays d).2.2

/-- Model of Spark's `dayofweek` on a date column: 1 = Sunday … 7 = Saturday
(1970-01-01, epoch day 0, was a Thursday, so it maps to 5). -/
def dayOfWeekOfDate (d : Int) : Int := (d + 4).emod 7 + 1

/-- ISO day of week: 1 = Monday … 7 = Sunday. -/
def isoDayOfWeek (d : Int) : Int := (d + 3).emod 7 + 1

/-- Model of Spark's `weekofyear` on a date column: the ISO-8601 week number,
computed as the week index of the Thursday of the date's week within that
Thursday's calendar year. -/
def weekOfYearOfDate (d : Int) : Int :=
  let thu := d + 4 - isoDayOfWeek d
  let y := yearOfDate thu
  (thu - daysFromCivil y 1 1).ediv 7 + 1

/-- Model of `DataFrame.dropDuplicates(subset)` (etl.py lines 41, 64, 147):
one row is retained per distinct value of `key` — the first row encountered,
matching the design note "pick the first record encountered in a stable
enumeration order".  `seen` accumulates the key values already emitted. -/
def dedupByKeyAux {α κ : Type} [DecidableEq κ] (key : α → κ) :
    List κ → List α → List α
  | _, [] => []
  | seen, x :: xs =>
    if key x ∈ seen then dedupByKeyAux key seen xs
    else x :: dedupByKeyAux key (key x :: seen) xs

/-- `dropDuplicates` with no keys already seen. -/
def dedupByKey {α κ : Type} [DecidableEq κ] (key : α → κ) (l : List α) :
    List α :=
  dedupByKeyAux key [] l

/-- A row of the Song dimension (etl.py line 37). -/
structure SongRow where
  song_id : Option String
  title : String
  artist_id : Option String
  year : Int
  duration : Int
  artist_name : String
deriving DecidableEq

/-- Projection of a catalog record to a Song row (etl.py line 37). -/
def projectSong (r : CatalogRecord) : SongRow :=
  { song_id := r.song_id, title := r.title, artist_id := r.artist_id,
    year := r.year, duration := r.duration, artist_name := r.artist_name }

/-- The Song dimension: project, then `dropDuplicates(["song_id"])`
(etl.py lines 37 and 41). -/
def songs_table (catalog : List CatalogRecord) : List SongRow :=
  dedupByKey (fun row => row.song_id) (catalog.map projectSong)

/-- A row of the Artist dimension, after the renames of etl.py lines 54-58. -/
structure ArtistRow where
  artist_id : Option String
  name : String
  location : String
  latitude : Int
  longitude : Int
deriving DecidableEq

/-- Projection of a catalog record to an Artist row (etl.py lines 50-58). -/
def projectArtist (r : CatalogRecord) : ArtistRow :=
  { artist_id := r.artist_id, name := r.artist_name,
    location := r.artist_location, latitude := r.artist_latitude,
    longitude := r.artist_longitude }

/-- The Artist dimension: project and rename, then
`dropDuplicates(["artist_id"])` (etl.py lines 50-64). -/
def artists_table (catalog : List CatalogRecord) : List ArtistRow :=
  dedupByKey (fun row => row.artist_id) (catalog.map projectArtist)

/-- A row of the User dimension: `row_number` and `ts` are dropped
(etl.py line 112), so the relation has exactly these five columns. -/
structure UserRow where
  user_id : Option String
  first_name : String
  last_name : String
  gender : String
  level : String
deriving DecidableEq

/-- Projection of a usage record to a User row. -/
def projectUser (r : UsageRecord) : UserRow :=
  { user_id := r.user_id, first_name := r.first_name,
    last_name := r.last_name, gender := r.gender, level := r.level }

/-- A maximum-`ts` row of a list of usage records, or `none` on the empty
list.  Models `row_number().over(Window.partitionBy("user_id")
.orderBy(desc("ts")))` followed by `filter(row_number == 1)` (etl.py lines
103-109) restricted to one partition: the row kept is one whose `ts` is
maximal, ties broken arbitrarily (here: the earlier row wins). -/
def pickLatest : List UsageRecord → Option UsageRecord
  | [] => none
  | r :: rs =>
    match pickLatest rs with
    | none => some r
    | some b => if b.ts > r.ts then some b else some r

/-- The `page == "NextSong"` filter applied to the log DataFrame
(etl.py line 83), before any of the users/time/songplays derivations. -/
def nextSongOnly (logs : List UsageRecord) : List UsageRecord :=
  logs.filter (fun r => r.page = "NextSong")

/-- The User dimension (etl.py lines 97-112): built from the
NextSong-filtered DataFrame; one row per distinct `user_id`, carrying the
fields of a maximum-`ts` record of that user, with `ts` dropped. -/
def users_table (logs : List UsageRecord) : List UserRow :=
  let df := nextSongOnly logs
  let keys := dedupByKey (fun u => u) (df.map (fun r => r.user_id))
  keys.filterMap (fun u =>
    (pickLatest (df.filter (fun r => r.user_id = u))).map projectUser)

/-- A row of the Time dimension (etl.py line 143): the intermediate
`datetime` column is not among its columns. -/
structure TimeRow where
  start_time : Int
  hour : Int
  day : Int
  week : Int
  month : Int
  year : Int
  weekday : Int
deriving DecidableEq

/-- The derived columns added to the log DataFrame (etl.py lines 124-138):
`start_time = to_timestamp(ts)`, `datetime = to_date(start_time)`, then
`hour/day/week/month/weekday` extracted from `datetime` — and `year` also
computed with the `hour` function applied to `datetime` (line 137). -/
structure LogExt where
  row : UsageRecord
  start_time : Int
  datetime : Int
  hour : Int
  day : Int
  week : Int
  month : Int
  year : Int
  weekday : Int
deriving DecidableEq

/-- The `withColumn` chain of etl.py lines 124-138 on one record. -/
def extendLog (r : UsageRecord) : LogExt :=
  let st := to_timestamp r.ts
  let dt := toDateDays st
  { row := r, start_time := st, datetime := dt,
    hour := hourOfDate dt, day := dayOfMonthOfDate dt,
    week := weekOfYearOfDate dt, month := monthOfDate dt,
    year := hourOfDate dt, weekday := dayOfWeekOfDate dt }

/-- The log DataFrame after the NextSong filter and the derived columns. -/
def logDF (logs : List UsageRecord) : List LogExt :=
  (nextSongOnly logs).map extendLog

/-- Projection of an extended log row to a Time row (etl.py line 143). -/
def projectTime (e : LogExt) : TimeRow :=
  { start_time := e.start_time, hour := e.hour, day := e.day,
    week := e.week, month := e.month, year := e.year, weekday := e.weekday }

/-- The Time dimension (etl.py lines 143-147): project the derived columns,
then `dropDuplicates(["start_time"])`. -/
def time_table (logs : List UsageRecord) : List TimeRow :=
  dedupByKey (fun row => row.start_time) ((logDF logs).map projectTime)

/-- A row of the Songplay fact relation as selected at etl.py line 168
(the `songplay_id` surrogate key is appended afterwards, line 171). -/
structure SongplayRow where
  start_time : Int
  user_id : Option String
  level : String
  song_id : Option String
  artist_id : Option String
  session_id : Int
  location : String
  user_agent : String
  year : Int
  month : Int
deriving DecidableEq

/-- The catalog records matching one usage record under the join condition
of etl.py line 165: `usage.song == catalog.title` and
`usage.artist == catalog.artist_name`, exact string equality. -/
def catalogMatches (r : UsageRecord) (catalog : List CatalogRecord) :
    List CatalogRecord :=
  catalog.filter (fun c => r.song = c.title ∧ r.artist = c.artist_name)

/-- The rows the left-outer join (etl.py line 165) produces for one usage
row: one row per matching catalog record, or a single row paired with
`none` when no catalog record matches. -/
def joinRows (e : LogExt) (catalog : List CatalogRecord) :
    List (LogExt × Option CatalogRecord) :=
  match catalogMatches e.row catalog with
  | [] => [(e, none)]
  | c :: cs => (c :: cs).map (fun c => (e, some c))

/-- The left-outer join of the extended log DataFrame against the raw
catalog records (etl.py line 165). -/
def leftJoin (df : List LogExt) (catalog : List CatalogRecord) :
    List (LogExt × Option CatalogRecord) :=
  df.flatMap (fun e => joinRows e catalog)

/-- Projection of a joined row to a Songplay row (etl.py line 168):
`song_id`/`artist_id` come from the catalog side (null when unmatched);
`year`/`month` are the derived columns of the usage side (the catalog `year`
was renamed to `album_year` at line 162, so no ambiguity remains). -/
def projectSongplay (p : LogExt × Option CatalogRecord) : SongplayRow :=
  { start_time := p.1.start_time, user_id := p.1.row.user_id,
    level := p.1.row.level,
    song_id := p.2.bind (fun c => c.song_id),
    artist_id := p.2.bind (fun c => c.artist_id),
    session_id := p.1.row.session_id, location := p.1.row.location,
    user_agent := p.1.row.user_agent, year := p.1.year, month := p.1.month }

/-- The Songplay fact relation before the surrogate key is appended
(etl.py lines 165-168). -/
def songplays_table (logs : List UsageRecord)
    (catalog : List CatalogRecord) : List SongplayRow :=
  (leftJoin (logDF logs) catalog).map projectSongplay

/-- `songplay_id` (etl.py line 171, `monotonically_increasing_id`): the
only contract is uniqueness; modelled as the row's position index. -/
def songplays_with_id (logs : List UsageRecord)
    (catalog : List CatalogRecord) : List (Nat × SongplayRow) :=
  (songplays_table logs catalog).enum


/-- A usage record with the given page, level, user and instant; the
remaining fields are fixed sample values. -/
def sampleLog (pg lvl : String) (uid : Option String) (t : Int) :
    UsageRecord :=
  { page := pg, user_id := uid, first_name := "Jo", last_name := "Doe",
    gender := "F", level := lvl, song := "Test Song",
    artist := "Test Artist", session_id := 1, location := "NYC",
    user_agent := "agent", ts := t }

/-- A catalog record with the given song/artist identifiers, title and
artist name; the remaining fields are fixed sample values. -/
def sampleCatalog (sid aid : Option String) (t nm : String) :
    CatalogRecord :=
  { song_id := sid, title := t, artist_id := aid, artist_name := nm,
    artist_location := "LA", artist_latitude := 34,
    artist_longitude := -118, duration := 200, year := 1999 }

/-- The concrete NextSong record exhibiting the C3 timestamp defect. -/
def c3log : UsageRecord := sampleLog "NextSong" "free" (some "7") 1000

/-- The non-NextSong record refuting C1 as stated. -/
def c1home : UsageRecord := sampleLog "Home" "free" (some "5") 0

/-- Input for the C1 witness: the spec §8 example, user 7 first free then
paid. -/
def c1logs : List UsageRecord :=
  [sampleLog "NextSong" "free" (some "7") 1000,
   sampleLog "NextSong" "paid" (some "7") 2000]

/-- Input for the C2 witness. -/
def c2logs : List UsageRecord := [sampleLog "NextSong" "free" (some "7") 7000]

/-- The NextSong record driving the C4 witness. -/
def c4r : UsageRecord := sampleLog "NextSong" "free" (some "7") 1000

/-- Usage input for the C4 witness. -/
def c4logs : List UsageRecord := [c4r]

/-- Catalog input for the C4 witness: exactly one record matching `c4r`. -/
def c4cat : List CatalogRecord :=
  [sampleCatalog (some "S1") (some "A1") "Test Song" "Test Artist"]

/-- Usage input for the C5 witness: one non-NextSong record. -/
def c5logs : List UsageRecord := [sampleLog "Home" "free" (some "5") 0]

/-- Catalog input for the C6 witness: two records sharing `song_id` S1. -/
def c6cat : List CatalogRecord :=
  [sampleCatalog (some "S1") (some "A1") "T1" "N1",
   sampleCatalog (some "S1") (some "A2") "T2" "N2"]

/-- First record of the C7 witness input. -/
def c7r1 : UsageRecord := sampleLog "NextSong" "free" (some "1") 5000

/-- Second record of the C7 witness input: same `ts`, other fields differ. -/
def c7r2 : UsageRecord := sampleLog "NextSong" "paid" (some "2") 5000

/-- Usage input for the C7 witness. -/
def c7logs : List UsageRecord := [c7r1, c7r2]

/-- Usage input for the C8 witness. -/
def c8logs : List UsageRecord := [sampleLog "NextSong" "free" (some "9") 3000]

/-- The Time row derived from the C8 witness input. -/
def c8row : TimeRow :=
  projectTime (extendLog (sampleLog "NextSong" "free" (some "9") 3000))

/-- Catalog input for the C9 witness: a record with null key fields. -/
def c9cat : List CatalogRecord := [sampleCatalog none none "T" "N"]

/-- Usage input for the C9 witness: a NextSong record with null user_id. -/
def c9logs : List UsageRecord := [sampleLog "NextSong" "free" none 10]

/-- Catalog input for the C10 witness. -/
def c10cat : List CatalogRecord :=
  [sampleCatalog (some "S1") (some "A1") "T" "N"]

/-! ## Lemmas about the deduplication model -/

theorem mem_of_mem_dedupByKeyAux {α κ : Type} [DecidableEq κ] (key : α → κ) :
    ∀ (seen : List κ) (l : List α) (x : α),
      x ∈ dedupByKeyAux key seen l → x ∈ l := by
  intro seen l
  induction l generalizing seen with
  | nil => intro x hx; simp [dedupByKeyAux] at hx
  | cons a as ih =>
    intro x hx
    by_cases h : key a ∈ seen
    · simp only [dedupByKeyAux, if_pos h] at hx
      exact List.mem_cons_of_mem a (ih seen x hx)
    · simp only [dedupByKeyAux, if_neg h] at hx
      rw [List.mem_cons] at hx
      rcases hx with hx | hx
      · exact hx ▸ List.mem_cons_self a as
      · exact List.mem_cons_of_mem a (ih _ x hx)

theorem key_not_seen_of_mem_dedupByKeyAux {α κ : Type} [DecidableEq κ]
    (key : α → κ) :
    ∀ (seen : List κ) (l : List α) (x : α),
      x ∈ dedupByKeyAux key seen l → key x ∉ seen := by
  intro seen l
  induction l generalizing seen with
  | nil => intro x hx; simp [dedupByKeyAux] at hx
  | cons a as ih =>
    intro x hx
    by_cases h : key a ∈ seen
    · simp only [dedupByKeyAux, if_pos h] at hx
      exact ih seen x hx
    · simp only [dedupByKeyAux, if_neg h] at hx
      rw [List.mem_cons] at hx
      rcases hx with hx | hx
      · exact hx ▸ h
      · have := ih (key a :: seen) x hx
        intro hc
        exact this (List.mem_cons_of_mem _ hc)

theorem nodup_keys_dedupByKeyAux {α κ : Type} [DecidableEq κ] (key : α → κ) :
    ∀ (seen : List κ) (l : List α),
      ((dedupByKeyAux key seen l).map key).Nodup := by
  intro seen l
  induction l generalizing seen with
  | nil => simp [dedupByKeyAux]
  | cons a as ih =>
    by_cases h : key a ∈ seen
    · simpa only [dedupByKeyAux, if_pos h] using ih seen
    · simp only [dedupByKeyAux, if_neg h, List.map_cons, List.nodup_cons]
      refine ⟨?_, ih (key a :: seen)⟩
      intro hmem
      rcases List.mem_map.mp hmem with ⟨b, hb, hkb⟩
      have := key_not_seen_of_mem_dedupByKeyAux key (key a :: seen) as b hb
      exact this (hkb ▸ List.mem_cons_self _ _)

theorem exists_key_dedupByKeyAux {α κ : Type} [DecidableEq κ] (key : α → κ) :
    ∀ (seen : List κ) (l : List α) (a : α), a ∈ l → key a ∉ seen →
      ∃ b ∈ dedupByKeyAux key seen l, key b = key a := by
  intro seen l
  induction l generalizing seen with
  | nil => intro a ha _; exact absurd ha (List.not_mem_nil a)
  | cons x xs ih =>
    intro a ha hns
    rw [List.mem_cons] at ha
    by_cases hx : key x ∈ seen
    · rcases ha with ha | ha
      · exact absurd (ha ▸ hns) (fun h => h hx)
      · simpa only [dedupByKeyAux, if_pos hx] using ih seen a ha hns
    · simp only [dedupByKeyAux, if_neg hx]
      by_cases hk : key a = key x
      · exact ⟨x, List.mem_cons_self _ _, hk.symm⟩
      · rcases ha with ha | ha
        · exact absurd (congrArg key ha) hk
        · have hns' : key a ∉ key x :: seen := by
            intro hc
            rcases List.mem_cons.mp hc with hc | hc
            · exact hk hc
            · exact hns hc
          rcases ih (key x :: seen) a ha hns' with ⟨b, hb, hkb⟩
          exact ⟨b, List.mem_cons_of_mem _ hb, hkb⟩

theorem filter_key_seen_dedupByKeyAux {α κ : Type} [DecidableEq κ]
    (key : α → κ) :
    ∀ (seen : List κ) (l : List α) (k : κ), k ∈ seen →
      (dedupByKeyAux key seen l).filter (fun a => key a = k) = [] := by
  intro seen l
  induction l generalizing seen with
  | nil => intro k _; simp [dedupByKeyAux]
  | cons x xs ih =>
    intro k hk
    by_cases hx : key x ∈ seen
    · simpa only [dedupByKeyAux, if_pos hx] using ih seen k hk
    · have hne : key x ≠ k := fun h => hx (h ▸ hk)
      simp only [dedupByKeyAux, if_neg hx, List.filter_cons,
        decide_eq_true_eq, if_neg hne]
      exact ih (key x :: seen) k (List.mem_cons_of_mem _ hk)

theorem length_filter_dedupByKeyAux_le_one {α κ : Type} [DecidableEq κ]
    (key : α → κ) :
    ∀ (seen : List κ) (l : List α) (k : κ),
      ((dedupByKeyAux key seen l).filter (fun a => key a = k)).length ≤ 1 := by
  intro seen l
  induction l generalizing seen with
  | nil => intro k; simp [dedupByKeyAux]
  | cons x xs ih =>
    intro k
    by_cases hx : key x ∈ seen
    · simpa only [dedupByKeyAux, if_pos hx] using ih seen k
    · by_cases hk : key x = k
      · simp only [dedupByKeyAux, if_neg hx, List.filter_cons,
          decide_eq_true_eq, if_pos hk]
        have h0 := filter_key_seen_dedupByKeyAux key (key x :: seen) xs k
          (hk ▸ List.mem_cons_self _ _)
        rw [h0]
        simp
      · simp only [dedupByKeyAux, if_neg hx, List.filter_cons,
          decide_eq_true_eq, if_neg hk]
        exact ih (key x :: seen) k

theorem length_filter_dedupByKeyAux_eq_one {α κ : Type} [DecidableEq κ]
    (key : α → κ) (seen : List κ) (l : List α) (a : α)
    (ha : a ∈ l) (hns : key a ∉ seen) :
    ((dedupByKeyAux key seen l).filter (fun b => key b = key a)).length = 1 := by
  rcases exists_key_dedupByKeyAux key seen l a ha hns with ⟨b, hb, hkb⟩
  have hmem : b ∈ (dedupByKeyAux key seen l).filter (fun b => key b = key a) :=
    List.mem_filter.mpr ⟨hb, by simpa using hkb⟩
  have hpos : 0 < ((dedupByKeyAux key seen l).filter
      (fun b => key b = key a)).length :=
    List.length_pos.mpr (fun hnil => by simp [hnil] at hmem)
  exact Nat.le_antisymm (length_filter_dedupByKeyAux_le_one key seen l (key a))
    hpos

/-! ## Lemmas about the latest-wins window model -/

theorem mem_of_mem_dedupByKey {α κ : Type} [DecidableEq κ] (key : α → κ)
    (l : List α) (x : α) (hx : x ∈ dedupByKey key l) : x ∈ l :=
  mem_of_mem_dedupByKeyAux key [] l x hx

theorem nodup_keys_dedupByKey {α κ : Type} [DecidableEq κ] (key : α → κ)
    (l : List α) : ((dedupByKey key l).map key).Nodup :=
  nodup_keys_dedupByKeyAux key [] l

theorem exists_key_dedupByKey {α κ : Type} [DecidableEq κ] (key : α → κ)
    (l : List α) (a : α) (ha : a ∈ l) :
    ∃ b ∈ dedupByKey key l, key b = key a :=
  exists_key_dedupByKeyAux key [] l a ha (List.not_mem_nil _)

theorem length_filter_dedupByKey_le_one {α κ : Type} [DecidableEq κ]
    (key : α → κ) (l : List α) (k : κ) :
    ((dedupByKey key l).filter (fun a => key a = k)).length ≤ 1 :=
  length_filter_dedupByKeyAux_le_one key [] l k

theorem length_filter_dedupByKey_eq_one {α κ : Type} [DecidableEq κ]
    (key : α → κ) (l : List α) (a : α) (ha : a ∈ l) :
    ((dedupByKey key l).filter (fun b => key b = key a)).length = 1 :=
  length_filter_dedupByKeyAux_eq_one key [] l a ha (List.not_mem_nil _)

theorem pickLatest_eq_none {l : List UsageRecord}
    (h : pickLatest l = none) : l = [] := by
  cases l with
  | nil => rfl
  | cons r rs =>
    exfalso
    cases hrs : pickLatest rs with
    | none => simp [pickLatest, hrs] at h
    | some b =>
      simp only [pickLatest, hrs] at h
      by_cases hts : b.ts > r.ts
      · rw [if_pos hts] at h; exact Option.noConfusion h
      · rw [if_neg hts] at h; exact Option.noConfusion h

theorem pickLatest_mem :
    ∀ (l : List UsageRecord) (b : UsageRecord),
      pickLatest l = some b → b ∈ l := by
  intro l
  induction l with
  | nil => intro b hb; simp [pickLatest] at hb
  | cons r rs ih =>
    intro b hb
    cases hrs : pickLatest rs with
    | none =>
      simp only [pickLatest, hrs, Option.some_inj] at hb
      exact hb ▸ List.mem_cons_self r rs
    | some b' =>
      simp only [pickLatest, hrs] at hb
      by_cases hts : b'.ts > r.ts
      · rw [if_pos hts, Option.some_inj] at hb
        exact List.mem_cons_of_mem r (hb ▸ ih b' hrs)
      · rw [if_neg hts, Option.some_inj] at hb
        exact hb ▸ List.mem_cons_self r rs

theorem pickLatest_max :
    ∀ (l : List UsageRecord) (b : UsageRecord),
      pickLatest l = some b → ∀ y ∈ l, y.ts ≤ b.ts := by
  intro l
  induction l with
  | nil => intro b hb; simp [pickLatest] at hb
  | cons r rs ih =>
    intro b hb y hy
    rw [List.mem_cons] at hy
    cases hrs : pickLatest rs with
    | none =>
      simp only [pickLatest, hrs, Option.some_inj] at hb
      have hnil : rs = [] := pickLatest_eq_none hrs
      rcases hy with hy | hy
      · rw [hy, hb]
      · rw [hnil] at hy; exact absurd hy (List.not_mem_nil y)
    | some b' =>
      simp only [pickLatest, hrs] at hb
      by_cases hts : b'.ts > r.ts
      · rw [if_pos hts, Option.some_inj] at hb
        rw [← hb]
        rcases hy with hy | hy
        · exact hy ▸ le_of_lt hts
        · exact ih b' hrs y hy
      · rw [if_neg hts, Option.some_inj] at hb
        rw [← hb]
        rcases hy with hy | hy
        · exact le_of_eq (congrArg UsageRecord.ts hy)
        · exact le_trans (ih b' hrs y hy) (le_of_not_gt hts)

/-- For a `user_id` that occurs in a record list, the per-partition window
model selects a record of that user with maximal `ts`. -/
theorem pickLatest_partition (df : List UsageRecord) (u : Option String)
    (h : u ∈ df.map (fun r => r.user_id)) :
    ∃ b, pickLatest (df.filter (fun r => r.user_id = u)) = some b ∧
      b.user_id = u ∧ b ∈ df ∧
      (∀ y ∈ df, y.user_id = u → y.ts ≤ b.ts) := by
  rcases List.mem_map.mp h with ⟨r, hr, hru⟩
  have hrf : r ∈ df.filter (fun r => r.user_id = u) :=
    List.mem_filter.mpr ⟨hr, by simpa using hru⟩
  cases hpl : pickLatest (df.filter (fun r => r.user_id = u)) with
  | none =>
    exfalso
    rw [pickLatest_eq_none hpl] at hrf
    exact List.not_mem_nil r hrf
  | some b =>
    have hbmem := pickLatest_mem _ b hpl
    have hbf := List.mem_filter.mp hbmem
    refine ⟨b, rfl, by simpa using hbf.2, hbf.1, ?_⟩
    intro y hy hyu
    exact pickLatest_max _ b hpl y
      (List.mem_filter.mpr ⟨hy, by simpa using hyu⟩)

/-- The keys of the User relation are exactly the deduplicated `user_id`
column of the NextSong-filtered DataFrame. -/
theorem users_table_keys (logs : List UsageRecord) :
    (users_table logs).map (fun row => row.user_id)
      = dedupByKey (fun u => u)
          ((nextSongOnly logs).map (fun r => r.user_id)) := by
  have main : ∀ (df : List UsageRecord) (keys : List (Option String)),
      (∀ u ∈ keys, u ∈ df.map (fun r => r.user_id)) →
      ((keys.filterMap (fun u =>
        (pickLatest (df.filter (fun r => r.user_id = u))).map projectUser)).map
          (fun row => row.user_id)) = keys := by
    intro df keys
    induction keys with
    | nil => intro _; rfl
    | cons u ks ih =>
      intro h
      rcases pickLatest_partition df u (h u (List.mem_cons_self u ks)) with
        ⟨b, hb, hbu, _, _⟩
      rw [List.filterMap_cons, hb]
      simp only [Option.map_some', List.map_cons]
      have hpu : (projectUser b).user_id = u := hbu
      rw [hpu, ih (fun v hv => h v (List.mem_cons_of_mem u hv))]
  exact main (nextSongOnly logs)
    (dedupByKey (fun u => u) ((nextSongOnly logs).map (fun r => r.user_id)))
    (fun u hu => mem_of_mem_dedupByKey (fun u => u) _ u hu)

/-! ## Provenance of Time rows -/

/-- Every Time row is the projection of the extended columns of some
NextSong usage record of the input. -/
theorem mem_time_table (logs : List UsageRecord) (row : TimeRow)
    (h : row ∈ time_table logs) :
    ∃ r ∈ logs, r.page = "NextSong" ∧ row = projectTime (extendLog r) := by
  have h' : row ∈ dedupByKey (fun row => row.start_time)
      ((logDF logs).map projectTime) := h
  have h1 : row ∈ (logDF logs).map projectTime :=
    mem_of_mem_dedupByKey (fun row => row.start_time) _ row h'
  rcases List.mem_map.mp h1 with ⟨e, he, hpe⟩
  rcases List.mem_map.mp he with ⟨r, hr, hre⟩
  have hf := List.mem_filter.mp hr
  exact ⟨r, hf.1, by simpa using hf.2, by rw [← hpe, ← hre]⟩

/-- Every NextSong usage record contributes its projected Time row to the
pre-deduplication Time column set. -/
theorem time_row_mem_projected (logs : List UsageRecord) (r : UsageRecord)
    (hr : r ∈ logs) (hp : r.page = "NextSong") :
    projectTime (extendLog r) ∈ (logDF logs).map projectTime := by
  refine List.mem_map_of_mem projectTime (List.mem_map_of_mem extendLog ?_)
  exact List.mem_filter.mpr ⟨hr, by simpa using hp⟩

theorem hourOfDate_range (d : Int) : 0 ≤ hourOfDate d ∧ hourOfDate d ≤ 23 := by
  unfold hourOfDate hourOfMs
  constructor
  · exact Int.emod_nonneg _ (by norm_num)
  · have h24 : ((d * 86400000).ediv 3600000).emod 24 < 24 :=
      Int.emod_lt_of_pos _ (by norm_num)
    linarith

theorem length_filter_key_eq_one {α κ : Type} [DecidableEq κ]
    (key : α → κ) (l : List α) (a : α) (k : κ) (ha : a ∈ l)
    (hk : key a = k) :
    ((dedupByKey key l).filter (fun b => key b = k)).length = 1 := by
  subst hk
  exact length_filter_dedupByKeyAux_eq_one key [] l a ha (List.not_mem_nil _)

theorem length_filter_comp {α κ : Type} (key : α → κ) (p : κ → Bool)
    (l : List α) :
    (l.filter (fun a => p (key a))).length = ((l.map key).filter p).length := by
  rw [List.filter_map, List.length_map]
  rfl

/-! ## The claims -/

/-- C2: for every NextSong usage record, the `year` field of its Time row is
computed by applying the hour-extraction function to the derived date — not
a year-extraction function — so its value lies in the range 0–23 rather
than being a calendar year (etl.py line 137,
`withColumn("year", hour(df.datetime))`). -/
theorem c2_year_is_hour_of_date (logs : List UsageRecord) (row : TimeRow)
    (h : row ∈ time_table logs) :
    row.year = hourOfDate (toDateDays row.start_time) ∧
    0 ≤ row.year ∧ row.year ≤ 23 := by
  rcases mem_time_table logs row h with ⟨r, _, _, hrow⟩
  refine ⟨by rw [hrow]; rfl, ?_, ?_⟩
  · rw [hrow]
    exact (hourOfDate_range (toDateDays (to_timestamp r.ts))).1
  · rw [hrow]
    exact (hourOfDate_range (toDateDays (to_timestamp r.ts))).2

/-- C6: the Song relation has exactly one row per distinct non-null
`song_id` of the catalog input, and every field of that row is taken
verbatim from a single input record bearing that `song_id` — no merging of
fields across duplicates (etl.py lines 37-41). -/
theorem c6_song_one_row_per_id (catalog : List CatalogRecord) (sid : String)
    (h : some sid ∈ catalog.map (fun r => r.song_id)) :
    ((songs_table catalog).filter
      (fun row => row.song_id = some sid)).length = 1 ∧
    ∀ row ∈ songs_table catalog, row.song_id = some sid →
      ∃ r ∈ catalog, r.song_id = some sid ∧ row = projectSong r := by
  constructor
  · rcases List.mem_map.mp h with ⟨r, hr, hrs⟩
    have ha : projectSong r ∈ catalog.map projectSong :=
      List.mem_map_of_mem projectSong hr
    exact length_filter_key_eq_one (fun row => row.song_id)
      (catalog.map projectSong) (projectSong r) (some sid) ha hrs
  · intro row hrow hkey
    have hrow2 : row ∈ dedupByKey (fun row => row.song_id)
        (catalog.map projectSong) := hrow
    have hmem := mem_of_mem_dedupByKey (fun row => row.song_id) _ row hrow2
    rcases List.mem_map.mp hmem with ⟨r, hr, hpr⟩
    refine ⟨r, hr, ?_, hpr.symm⟩
    rw [← hpr] at hkey
    exact hkey

/-- C7: the Time relation holds exactly one row per distinct `start_time`
value — its `start_time` column has no duplicates, and any two NextSong
usage records with identical `ts` values yield exactly one (shared) Time
row (etl.py line 147, `dropDuplicates(["start_time"])`). -/
theorem c7_time_one_row_per_start_time (logs : List UsageRecord) :
    ((time_table logs).map (fun row => row.start_time)).Nodup ∧
    ∀ r1 r2 : UsageRecord, r1 ∈ logs → r2 ∈ logs →
      r1.page = "NextSong" → r2.page = "NextSong" → r1.ts = r2.ts →
      ((time_table logs).filter
        (fun row => row.start_time = to_timestamp r1.ts)).length = 1 := by
  constructor
  · exact nodup_keys_dedupByKey (fun row => row.start_time)
      ((logDF logs).map projectTime)
  · intro r1 r2 h1 _ hp1 _ _
    have ha := time_row_mem_projected logs r1 h1 hp1
    have hone := length_filter_dedupByKey_eq_one (fun row => row.start_time)
      ((logDF logs).map projectTime) (projectTime (extendLog r1)) ha
    exact hone

/-- C8: every Time row's `hour`, `day`, `week`, `month` and `weekday` (and,
per C2, `year`) are extracted from the intermediate calendar date obtained
by truncating `start_time` to its day (etl.py lines 129-138); the `TimeRow`
structure itself shows that this intermediate date is not a column of the
relation — a row is exactly the seven columns below. -/
theorem c8_time_fields_from_truncated_date (logs : List UsageRecord)
    (row : TimeRow) (h : row ∈ time_table logs) :
    row = { start_time := row.start_time,
            hour := hourOfDate (toDateDays row.start_time),
            day := dayOfMonthOfDate (toDateDays row.start_time),
            week := weekOfYearOfDate (toDateDays row.start_time),
            month := monthOfDate (toDateDays row.start_time),
            year := hourOfDate (toDateDays row.start_time),
            weekday := dayOfWeekOfDate (toDateDays row.start_time) } := by
  rcases mem_time_table logs row h with ⟨r, _, _, hrow⟩
  rw [hrow]
  rfl

/-- C9: records whose grouping key is null are neither rejected nor
dropped: deduplication and the latest-wins reduction treat the null key as
a valid group, so Song, Artist and User each hold at most one null-keyed
row, and exactly one whenever a qualifying input record has a null key. -/
theorem c9_null_group_keys (catalog : List CatalogRecord)
    (logs : List UsageRecord) :
    (((songs_table catalog).filter
        (fun row => row.song_id = none)).length ≤ 1 ∧
      ((∃ r ∈ catalog, r.song_id = none) →
        ((songs_table catalog).filter
          (fun row => row.song_id = none)).length = 1)) ∧
    (((artists_table catalog).filter
        (fun row => row.artist_id = none)).length ≤ 1 ∧
      ((∃ r ∈ catalog, r.artist_id = none) →
        ((artists_table catalog).filter
          (fun row => row.artist_id = none)).length = 1)) ∧
    (((users_table logs).filter
        (fun row => row.user_id = none)).length ≤ 1 ∧
      ((∃ r ∈ logs, r.page = "NextSong" ∧ r.user_id = none) →
        ((users_table logs).filter
          (fun row => row.user_id = none)).length = 1)) := by
  refine ⟨⟨?_, ?_⟩, ⟨?_, ?_⟩, ⟨?_, ?_⟩⟩
  · exact length_filter_dedupByKey_le_one (fun row => row.song_id)
      (catalog.map projectSong) none
  · rintro ⟨r, hr, hrs⟩
    exact length_filter_key_eq_one (fun row => row.song_id)
      (catalog.map projectSong) (projectSong r) none
      (List.mem_map_of_mem projectSong hr) hrs
  · exact length_filter_dedupByKey_le_one (fun row => row.artist_id)
      (catalog.map projectArtist) none
  · rintro ⟨r, hr, hrs⟩
    exact length_filter_key_eq_one (fun row => row.artist_id)
      (catalog.map projectArtist) (projectArtist r) none
      (List.mem_map_of_mem projectArtist hr) hrs
  · have hcomp := length_filter_comp (fun row => row.user_id)
      (fun u => u = none) (users_table logs)
    rw [hcomp, users_table_keys]
    exact length_filter_dedupByKey_le_one (fun u => u)
      ((nextSongOnly logs).map (fun r => r.user_id)) none
  · rintro ⟨r, hr, hp, hru⟩
    have hcomp := length_filter_comp (fun row => row.user_id)
      (fun u => u = none) (users_table logs)
    rw [hcomp, users_table_keys]
    have hdf : r ∈ nextSongOnly logs :=
      List.mem_filter.mpr ⟨hr, by simpa using hp⟩
    have h1 := length_filter_dedupByKeyAux_eq_one (fun u => u) []
      ((nextSongOnly logs).map (fun s => s.user_id)) r.user_id
      (List.mem_map_of_mem (fun s => s.user_id) hdf) (List.not_mem_nil _)
    rw [hru] at h1
    exact h1

/-- C10: every `artist_id` appearing in a row of the Song relation also
appears as the key of a row of the Artist relation, both relations being
projections of the same catalog record set (etl.py lines 37 and 50-64). -/
theorem c10_song_artist_id_in_artists (catalog : List CatalogRecord)
    (row : SongRow) (h : row ∈ songs_table catalog) :
    ∃ arow ∈ artists_table catalog, arow.artist_id = row.artist_id := by
  have h2 : row ∈ dedupByKey (fun row => row.song_id)
      (catalog.map projectSong) := h
  rcases List.mem_map.mp (mem_of_mem_dedupByKey _ _ row h2) with ⟨r, hr, hpr⟩
  rcases exists_key_dedupByKey (fun row => row.artist_id)
      (catalog.map projectArtist) (projectArtist r)
      (List.mem_map_of_mem projectArtist hr) with ⟨b, hb, hkb⟩
  exact ⟨b, hb, by rw [hkb, ← hpr]; rfl⟩

/-- C1 (amended): the User relation is built from the DataFrame already
filtered to `page == "NextSong"` (etl.py line 83 precedes line 97), so the
guarantee holds for every `user_id` present among NextSong records: its User
row carries the `level`/`first_name`/`last_name`/`gender` of a maximum-`ts`
NextSong record of that user (ties arbitrary), and — the `UserRow` type
having exactly five fields — `ts` is not a column of the relation. -/
theorem c1_user_latest_nextsong (logs : List UsageRecord) (u : Option String)
    (h : ∃ r ∈ logs, r.page = "NextSong" ∧ r.user_id = u) :
    ∃ row ∈ users_table logs, ∃ r ∈ logs,
      r.page = "NextSong" ∧ r.user_id = u ∧
      (∀ r' ∈ logs, r'.page = "NextSong" → r'.user_id = u → r'.ts ≤ r.ts) ∧
      row = projectUser r := by
  rcases h with ⟨r0, hr0, hp0, hu0⟩
  have hdf : r0 ∈ nextSongOnly logs :=
    List.mem_filter.mpr ⟨hr0, by simpa using hp0⟩
  have hkey : u ∈ (nextSongOnly logs).map (fun r => r.user_id) := by
    have h2 : r0.user_id ∈ (nextSongOnly logs).map (fun r => r.user_id) :=
      List.mem_map_of_mem (fun r => r.user_id) hdf
    rwa [hu0] at h2
  rcases pickLatest_partition (nextSongOnly logs) u hkey with
    ⟨b, hb, hbu, hbdf, hbmax⟩
  have hukeys : u ∈ dedupByKey (fun v => v)
      ((nextSongOnly logs).map (fun r => r.user_id)) := by
    rcases exists_key_dedupByKey (fun v => v) _ u hkey with ⟨k, hk, hkk⟩
    exact hkk ▸ hk
  have hfm : projectUser b ∈ users_table logs := by
    show projectUser b ∈ (dedupByKey (fun v => v)
        ((nextSongOnly logs).map (fun r => r.user_id))).filterMap
      (fun v => (pickLatest
        ((nextSongOnly logs).filter (fun r => r.user_id = v))).map projectUser)
    exact List.mem_filterMap.mpr ⟨u, hukeys, by rw [hb]; rfl⟩
  refine ⟨projectUser b, hfm, b, (List.mem_filter.mp hbdf).1,
    by simpa using (List.mem_filter.mp hbdf).2, hbu, ?_, rfl⟩
  intro r' hr' hp' hu'
  exact hbmax r' (List.mem_filter.mpr ⟨hr', by simpa using hp'⟩) hu'

/-- C4: the Songplay relation is a left-outer join of the filtered usage
records against the raw catalog records on exact string equality
`usage.song == catalog.title ∧ usage.artist == catalog.artist_name`
(etl.py lines 162-168): a usage record with zero matches yields exactly one
row with null `song_id`/`artist_id` and all usage-derived fields unchanged;
a record with n ≥ 1 matches yields exactly n rows, fan-out not
deduplicated; all these rows belong to the Songplay relation. -/
theorem c4_songplay_left_join (logs : List UsageRecord)
    (catalog : List CatalogRecord) (r : UsageRecord)
    (hr : r ∈ logs) (hp : r.page = "NextSong") :
    (catalogMatches r catalog = [] →
      (joinRows (extendLog r) catalog).map projectSongplay =
        [{ start_time := to_timestamp r.ts, user_id := r.user_id,
           level := r.level, song_id := none, artist_id := none,
           session_id := r.session_id, location := r.location,
           user_agent := r.user_agent,
           year := hourOfDate (toDateDays (to_timestamp r.ts)),
           month := monthOfDate (toDateDays (to_timestamp r.ts)) }]) ∧
    (catalogMatches r catalog ≠ [] →
      (joinRows (extendLog r) catalog).map projectSongplay =
        (catalogMatches r catalog).map (fun c =>
          { start_time := to_timestamp r.ts, user_id := r.user_id,
            level := r.level, song_id := c.song_id,
            artist_id := c.artist_id, session_id := r.session_id,
            location := r.location, user_agent := r.user_agent,
            year := hourOfDate (toDateDays (to_timestamp r.ts)),
            month := monthOfDate (toDateDays (to_timestamp r.ts)) })) ∧
    ((joinRows (extendLog r) catalog).length =
      if catalogMatches r catalog = [] then 1
      else (catalogMatches r catalog).length) ∧
    (∀ row ∈ (joinRows (extendLog r) catalog).map projectSongplay,
      row ∈ songplays_table logs catalog) := by
  have hrow : catalogMatches (extendLog r).row catalog
      = catalogMatches r catalog := rfl
  refine ⟨?_, ?_, ?_, ?_⟩
  · intro h0
    rw [show joinRows (extendLog r) catalog = [((extendLog r), none)] by
      unfold joinRows; rw [hrow, h0]]
    rfl
  · intro hne
    cases hms : catalogMatches r catalog with
    | nil => exact absurd hms hne
    | cons c cs =>
      rw [show joinRows (extendLog r) catalog
          = (c :: cs).map (fun c => ((extendLog r), some c)) by
        unfold joinRows; rw [hrow, hms]]
      rw [List.map_map]
      rfl
  · cases hms : catalogMatches r catalog with
    | nil =>
      rw [show joinRows (extendLog r) catalog = [((extendLog r), none)] by
        unfold joinRows; rw [hrow, hms]]
      simp
    | cons c cs =>
      rw [show joinRows (extendLog r) catalog
          = (c :: cs).map (fun c => ((extendLog r), some c)) by
        unfold joinRows; rw [hrow, hms]]
      simp
  · intro row hmem
    rcases List.mem_map.mp hmem with ⟨p, hpj, hpp⟩
    have he : extendLog r ∈ logDF logs :=
      List.mem_map_of_mem extendLog
        (List.mem_filter.mpr ⟨hr, by simpa using hp⟩)
    have hlj : p ∈ leftJoin (logDF logs) catalog :=
      List.mem_flatMap.mpr ⟨extendLog r, he, hpj⟩
    exact hpp ▸ List.mem_map_of_mem projectSongplay hlj

/-- C5: usage records whose `page` is not `"NextSong"` contribute no row to
the Time or Songplay relations: both relations are unchanged by erasing all
such records (the filter of etl.py line 83 precedes both derivations), and
an input consisting only of such records yields empty relations. -/
theorem c5_non_nextsong_excluded (logs : List UsageRecord)
    (catalog : List CatalogRecord) :
    (time_table (nextSongOnly logs) = time_table logs ∧
     songplays_table (nextSongOnly logs) catalog
       = songplays_table logs catalog) ∧
    ((∀ r ∈ logs, r.page ≠ "NextSong") →
      time_table logs = [] ∧ songplays_table logs catalog = []) := by
  have hff : nextSongOnly (nextSongOnly logs) = nextSongOnly logs := by
    simp [nextSongOnly, List.filter_filter]
  constructor
  · constructor
    · unfold time_table logDF
      rw [hff]
    · unfold songplays_table leftJoin logDF
      rw [hff]
  · intro h
    have hnil : nextSongOnly logs = [] := by
      apply List.filter_eq_nil_iff.mpr
      intro a ha
      simpa using h a ha
    constructor
    · unfold time_table logDF
      rw [hnil]
      rfl
    · unfold songplays_table leftJoin logDF
      rw [hnil]
      rfl

/-- C3 (code bug): `start_time` does not equal the instant denoted by `ts`
as origin-epoch milliseconds.  `to_timestamp(df.ts)` (etl.py line 124)
casts the numeric `ts` as *seconds* since the epoch, so a record with
`ts = 1000` (one second after the epoch, instant 1000 ms) gets
`start_time` at instant 1000000 ms — a factor of 1000 off; the
commented-out udf on line 127 shows the intended `/ 1000.0` conversion. -/
theorem c3_start_time_not_milliseconds :
    (time_table [c3log]).map (fun row => row.start_time)
      = [to_timestamp 1000] ∧
    to_timestamp 1000 = 1000000 ∧ c3log.ts = 1000 ∧
    (1000000 : Int) ≠ 1000 := by
  refine ⟨rfl, rfl, rfl, by decide⟩

/-- C1 counterexample: a `user_id` present in the usage record set via a
record whose page is `"Home"` gets no row in the User relation — the
NextSong filter of etl.py line 83 runs before the users projection of line
97, so the claim quantifying over every `user_id` present in the input is
false as stated. -/
theorem c1_counterexample_filtered_user :
    some "5" ∈ ([c1home].map (fun r => r.user_id)) ∧
    ¬ ∃ row ∈ users_table [c1home], row.user_id = some "5" := by
  constructor
  · decide
  · decide

/-- Witness for C1 (amended) at the spec §8 example input. -/
theorem c1_user_latest_nextsong_witness :
    (∃ r ∈ c1logs, r.page = "NextSong" ∧ r.user_id = some "7") ∧
    (∃ row ∈ users_table c1logs, ∃ r ∈ c1logs,
      r.page = "NextSong" ∧ r.user_id = some "7" ∧
      (∀ r' ∈ c1logs, r'.page = "NextSong" → r'.user_id = some "7" →
        r'.ts ≤ r.ts) ∧
      row = projectUser r) :=
  ⟨by decide, c1_user_latest_nextsong c1logs (some "7") (by decide)⟩

/-- Witness for C2 at a one-record input. -/
theorem c2_year_is_hour_of_date_witness :
    (projectTime (extendLog (sampleLog "NextSong" "free" (some "7") 7000))
        ∈ time_table c2logs) ∧
    ((projectTime (extendLog (sampleLog "NextSong" "free" (some "7") 7000))).year
        = hourOfDate (toDateDays
          (projectTime (extendLog
            (sampleLog "NextSong" "free" (some "7") 7000))).start_time) ∧
      0 ≤ (projectTime (extendLog
        (sampleLog "NextSong" "free" (some "7") 7000))).year ∧
      (projectTime (extendLog
        (sampleLog "NextSong" "free" (some "7") 7000))).year ≤ 23) :=
  ⟨by decide, c2_year_is_hour_of_date c2logs _ (by decide)⟩

/-- Witness for C4 at a one-record usage input with exactly one catalog
match. -/
theorem c4_songplay_left_join_witness :
    (c4r ∈ c4logs ∧ c4r.page = "NextSong") ∧
    ((catalogMatches c4r c4cat = [] →
      (joinRows (extendLog c4r) c4cat).map projectSongplay =
        [{ start_time := to_timestamp c4r.ts, user_id := c4r.user_id,
           level := c4r.level, song_id := none, artist_id := none,
           session_id := c4r.session_id, location := c4r.location,
           user_agent := c4r.user_agent,
           year := hourOfDate (toDateDays (to_timestamp c4r.ts)),
           month := monthOfDate (toDateDays (to_timestamp c4r.ts)) }]) ∧
    (catalogMatches c4r c4cat ≠ [] →
      (joinRows (extendLog c4r) c4cat).map projectSongplay =
        (catalogMatches c4r c4cat).map (fun c =>
          { start_time := to_timestamp c4r.ts, user_id := c4r.user_id,
            level := c4r.level, song_id := c.song_id,
            artist_id := c.artist_id, session_id := c4r.session_id,
            location := c4r.location, user_agent := c4r.user_agent,
            year := hourOfDate (toDateDays (to_timestamp c4r.ts)),
            month := monthOfDate (toDateDays (to_timestamp c4r.ts)) })) ∧
    ((joinRows (extendLog c4r) c4cat).length =
      if catalogMatches c4r c4cat = [] then 1
      else (catalogMatches c4r c4cat).length) ∧
    (∀ row ∈ (joinRows (extendLog c4r) c4cat).map projectSongplay,
      row ∈ songplays_table c4logs c4cat)) :=
  ⟨⟨by decide, rfl⟩, c4_songplay_left_join c4logs c4cat c4r (by decide) rfl⟩

/-- Witness for C5 at an input holding only a non-NextSong record. -/
theorem c5_non_nextsong_excluded_witness :
    (∀ r ∈ c5logs, r.page ≠ "NextSong") ∧
    (time_table c5logs = [] ∧ songplays_table c5logs [] = []) :=
  ⟨by decide, (c5_non_nextsong_excluded c5logs []).2 (by decide)⟩

/-- Witness for C6 at a catalog with two records sharing a song_id. -/
theorem c6_song_one_row_per_id_witness :
    (some "S1" ∈ c6cat.map (fun r => r.song_id)) ∧
    (((songs_table c6cat).filter
        (fun row => row.song_id = some "S1")).length = 1 ∧
      ∀ row ∈ songs_table c6cat, row.song_id = some "S1" →
        ∃ r ∈ c6cat, r.song_id = some "S1" ∧ row = projectSong r) :=
  ⟨by decide, c6_song_one_row_per_id c6cat "S1" (by decide)⟩

/-- Witness for C7 at two records with equal `ts` and differing fields. -/
theorem c7_time_one_row_per_start_time_witness :
    (c7r1 ∈ c7logs ∧ c7r2 ∈ c7logs ∧ c7r1.page = "NextSong" ∧
      c7r2.page = "NextSong" ∧ c7r1.ts = c7r2.ts) ∧
    ((time_table c7logs).filter
      (fun row => row.start_time = to_timestamp c7r1.ts)).length = 1 :=
  ⟨⟨by decide, by decide, rfl, rfl, rfl⟩,
   (c7_time_one_row_per_start_time c7logs).2 c7r1 c7r2
     (by decide) (by decide) rfl rfl rfl⟩

/-- Witness for C8 at a one-record input. -/
theorem c8_time_fields_from_truncated_date_witness :
    (c8row ∈ time_table c8logs) ∧
    c8row = { start_time := c8row.start_time,
              hour := hourOfDate (toDateDays c8row.start_time),
              day := dayOfMonthOfDate (toDateDays c8row.start_time),
              week := weekOfYearOfDate (toDateDays c8row.start_time),
              month := monthOfDate (toDateDays c8row.start_time),
              year := hourOfDate (toDateDays c8row.start_time),
              weekday := dayOfWeekOfDate (toDateDays c8row.start_time) } :=
  ⟨by decide, c8_time_fields_from_truncated_date c8logs c8row (by decide)⟩

/-- Witness for C9 at inputs whose grouping keys are null. -/
theorem c9_null_group_keys_witness :
    ((∃ r ∈ c9cat, r.song_id = none) ∧ (∃ r ∈ c9cat, r.artist_id = none) ∧
      (∃ r ∈ c9logs, r.page = "NextSong" ∧ r.user_id = none)) ∧
    (((songs_table c9cat).filter
        (fun row => row.song_id = none)).length = 1 ∧
      ((artists_table c9cat).filter
        (fun row => row.artist_id = none)).length = 1 ∧
      ((users_table c9logs).filter
        (fun row => row.user_id = none)).length = 1) :=
  ⟨⟨by decide, by decide, by decide⟩,
   ⟨(c9_null_group_keys c9cat c9logs).1.2 (by decide),
    (c9_null_group_keys c9cat c9logs).2.1.2 (by decide),
    (c9_null_group_keys c9cat c9logs).2.2.2 (by decide)⟩⟩

/-- Witness for C10 at a one-record catalog. -/
theorem c10_song_artist_id_in_artists_witness :
    (projectSong (sampleCatalog (some "S1") (some "A1") "T" "N")
        ∈ songs_table c10cat) ∧
    (∃ arow ∈ artists_table c10cat, arow.artist_id =
      (projectSong (sampleCatalog (some "S1") (some "A1") "T" "N")).artist_id) :=
  ⟨by decide, c10_song_artist_id_in_artists c10cat
    (projectSong (sampleCatalog (some "S1") (some "A1") "T" "N")) (by decide)⟩
